import Mathlib

/-!
Verification of the twitter-fetcher plugin core against its source.

The development shallowly embeds the plugin source (the current revision,
the second file of src/unnamed/part_000): the content resolver
`processTweet`, the discovery filter inside `getLatestTweetUrlByPuppeteer`,
and the subscription poller `checkAndPushUpdates` together with the
`twitter_subscriptions` table.  External collaborators (screenshot,
vxtwitter API, media download, translation, message delivery) are modelled
as explicit outcome environments; JavaScript string truthiness is modelled
explicitly where the source relies on it.
-/

/-- JavaScript truthiness of a nullable string (`undefined`/`null`/empty are falsy). -/
def jsTruthy : Option String → Bool
  | some s => s != ""
  | none => false

/-- Char-list prefix test (kernel-reducible helper for the substring test). -/
def headMatches : List Char → List Char → Bool
  | [], _ => true
  | _ :: _, [] => false
  | p :: ps, c :: cs => p == c && headMatches ps cs

/-- Char-list substring occurrence test. -/
def listContains (pat : List Char) : List Char → Bool
  | [] => pat.isEmpty
  | c :: cs => headMatches pat (c :: cs) || listContains pat cs

/-- JavaScript `String.prototype.includes`. -/
def jsIncludes (s pat : String) : Bool :=
  listContains pat.data s.data

/-- Plugin configuration fields used by the resolver call sites (`Config` in the source). -/
structure PluginConfig where
  showScreenshot : Bool
  sendText : Bool
  sendMedia : Bool
  useForward : Bool
  sub_showLink : Bool
  sub_showScreenshot : Bool
  sub_sendText : Bool
  sub_sendMedia : Bool
  sub_useForward : Bool
  parse_enableTranslation : Bool
  parse_targetLang : String
  sub_enableTranslation : Bool
  sub_targetLang : String
  deriving Repr, DecidableEq

/-- The `options` parameter of `processTweet`. -/
structure TweetOptions where
  showLink : Bool
  showScreenshot : Bool
  sendText : Bool
  sendMedia : Bool
  useForward : Bool
  platform : Option String
  enableTranslation : Bool
  targetLang : Option String
  deriving Repr, DecidableEq

/-- One element of `apiResponse.media_extended`. -/
structure MediaDesc where
  mtype : String
  url : String
  deriving Repr, DecidableEq

/-- Result of `http.file(media.url)`. -/
structure MediaFile where
  data : String
  mime : String
  deriving Repr, DecidableEq

/-- The fields of the vxtwitter API response read by `processTweet`. -/
structure ApiResponse where
  user_screen_name : Option String
  text : Option String
  media_extended : Option (List MediaDesc)
  deriving Repr, DecidableEq

/-- A media message element (`h.image` / `h.video`). -/
inductive MediaElem where
  | image (data mime : String)
  | video (data mime : String)
  deriving Repr, DecidableEq

/-- Outcomes of the external collaborators consulted during one `processTweet` call:
`screenshot` is the `getTweetScreenshot` outcome (buffer bytes or a thrown error),
`api` is the `http.get(apiUrl)` outcome, `download` the per-descriptor
`http.file` outcome, `translation` the `translateText` result (`none` models
both a null return and a swallowed failure, which the caller treats alike). -/
structure TweetEnv where
  screenshot : Except String String
  api : Except String ApiResponse
  download : MediaDesc → Except String MediaFile
  translation : Option String

/-- Source-link seeding: `if (options.showLink) textParts.push(tweetUrl)`. -/
def seedLink (url : String) (opts : TweetOptions) : List String :=
  if opts.showLink then [url] else []

/-- The screenshot block of `processTweet`: on success an `h.image` element,
on a thrown capture error nothing (logged and swallowed); skipped entirely
when `options.showScreenshot` is off. -/
def screenshotElem (opts : TweetOptions) (env : TweetEnv) : Option MediaElem :=
  if opts.showScreenshot then
    match env.screenshot with
    | .ok buf => some (.image buf "image/png")
    | .error _ => none
  else none

/-- The text parts contributed by the API response: identity line, tweet body,
and best-effort translation block.  Depends only on the translation outcome,
never on media downloads. -/
def apiTextParts (opts : TweetOptions) (translation : Option String)
    (resp : ApiResponse) : List String :=
  (if jsTruthy resp.user_screen_name then
    ["用户ID: " ++ resp.user_screen_name.getD ""] else []) ++
  (let orig := resp.text.getD ""
   if opts.sendText && (orig != "") then
     ["推文内容: " ++ orig] ++
     (if opts.enableTranslation && jsTruthy opts.targetLang then
        (if jsTruthy translation then
          ["\n【谷歌翻译 (" ++ opts.targetLang.getD "" ++ ")】:\n" ++ translation.getD ""]
         else [])
      else [])
   else [])

/-- One iteration of the media download loop: a failed download is skipped
(logged only), a successful image becomes `h.image`, a video or gif becomes
`h.video`, any other kind contributes nothing. -/
def mediaSeg (download : MediaDesc → Except String MediaFile)
    (m : MediaDesc) : Option MediaElem :=
  match download m with
  | .ok f =>
    if m.mtype = "image" then some (.image f.data f.mime)
    else if m.mtype = "video" ∨ m.mtype = "gif" then some (.video f.data f.mime)
    else none
  | .error _ => none

/-- The media elements produced by the download loop, guarded by
`options.sendMedia && apiResponse.media_extended`. -/
def downloadedMedia (opts : TweetOptions) (env : TweetEnv)
    (resp : ApiResponse) : List MediaElem :=
  if opts.sendMedia then
    match resp.media_extended with
    | some ms => ms.filterMap (mediaSeg env.download)
    | none => []
  else []

/-- The value returned by `processTweet`: the catch-all failure string, the
fixed no-content string, or a composed message (bundled when sent as a
`figure` forward, plain otherwise; both carry the same content). -/
inductive ProcessResult where
  | failure (msg : String)
  | noContent
  | msg (bundled : Bool) (texts : List String) (media : List MediaElem)
  deriving Repr, DecidableEq

/-- The `textParts` accumulator of `processTweet` just before assembly. -/
def allTextParts (url : String) (opts : TweetOptions) (translation : Option String)
    (resp : ApiResponse) : List String :=
  seedLink url opts ++ apiTextParts opts translation resp

/-- The joined-and-filtered text segments of the final message:
`[textParts.join(sep), ...].filter(Boolean)` keeps the joined string only
when it is nonempty. -/
def mainTexts (url : String) (opts : TweetOptions) (translation : Option String)
    (resp : ApiResponse) : List String :=
  let joined := String.intercalate "\n" (allTextParts url opts translation resp)
  if joined = "" then [] else [joined]

/-- Shallow embedding of `processTweet` (src/unnamed/part_000, second file).
The screenshot failure is swallowed; a failure of the metadata API get aborts
with the failure string; per-item download failures are skipped inside
`downloadedMedia`. -/
def processTweet (url : String) (opts : TweetOptions) (env : TweetEnv) : ProcessResult :=
  match env.api with
  | .error e => .failure e
  | .ok resp =>
    if (allTextParts url opts env.translation resp).isEmpty
        && ((screenshotElem opts env).toList ++ downloadedMedia opts env resp).isEmpty
      then .noContent
    else .msg (opts.useForward && (opts.platform == some "onebot"))
      (mainTexts url opts env.translation resp)
      ((screenshotElem opts env).toList ++ downloadedMedia opts env resp)

/-- The text segments of a returned message: the failure and no-content
returns are single fixed strings; a composed message carries its text parts. -/
def ProcessResult.textSegments : ProcessResult → List String
  | .failure m => ["获取推文内容失败: " ++ m]
  | .noContent => ["未能获取到任何内容."]
  | .msg _ ts _ => ts

/-- The media segments of a returned message: only a composed message has any. -/
def ProcessResult.mediaSegments : ProcessResult → List MediaElem
  | .failure _ => []
  | .noContent => []
  | .msg _ _ ms => ms

/-- The options built by the link middleware (manual parse call site):
`showLink` is hard-coded `false`. -/
def manualParseOptions (c : PluginConfig) (platform : String) : TweetOptions :=
  { showLink := false
    showScreenshot := c.showScreenshot
    sendText := c.sendText
    sendMedia := c.sendMedia
    useForward := c.useForward
    platform := some platform
    enableTranslation := c.parse_enableTranslation
    targetLang := some c.parse_targetLang }

/-- The options built by the subscription push call site inside
`checkAndPushUpdates`: `showLink` is the `sub_showLink` configuration value. -/
def subscriptionPushOptions (c : PluginConfig) (platform : String) : TweetOptions :=
  { showLink := c.sub_showLink
    showScreenshot := c.sub_showScreenshot
    sendText := c.sub_sendText
    sendMedia := c.sub_sendMedia
    useForward := c.sub_useForward
    platform := some platform
    enableTranslation := c.sub_enableTranslation
    targetLang := some c.sub_targetLang }

/-! ### Discovery: the `page.evaluate` loop of `getLatestTweetUrlByPuppeteer` -/

/-- One tweet `article` element on the account page: the text content of its
`socialContext` descendant when that element exists, and the `href` of its
first status link when one exists. -/
structure Article where
  socialContext : Option String
  statusLink : Option String
  deriving Repr, DecidableEq

/-- The skip test of the discovery loop: with a social context present, a
pinned post is always skipped, and a repost is skipped only when
`excludeRetweets` is set; without a social context nothing is skipped. -/
def skipArticle (excludeRetweets : Bool) (a : Article) : Bool :=
  match a.socialContext with
  | some ctx =>
    if jsIncludes ctx "Pinned" then true
    else if excludeRetweets &&
        (jsIncludes ctx "Retweeted" || jsIncludes ctx "reposted" || jsIncludes ctx "转推") then true
    else false
  | none => false

/-- The discovery loop itself: walk the articles in document order, skip the
filtered ones, and return the first status-link `href` found (null if none). -/
def findLatestTweetUrl (excludeRetweets : Bool) : List Article → Option String
  | [] => none
  | a :: rest =>
    if skipArticle excludeRetweets a then findLatestTweetUrl excludeRetweets rest
    else
      match a.statusLink with
      | some href => some href
      | none => findLatestTweetUrl excludeRetweets rest

/-- Spec-side predicate: the article is a pinned post. -/
def isPinned (a : Article) : Bool :=
  match a.socialContext with
  | some ctx => jsIncludes ctx "Pinned"
  | none => false

/-- Spec-side predicate: the article is a repost. -/
def isRepost (a : Article) : Bool :=
  match a.socialContext with
  | some ctx => jsIncludes ctx "Retweeted" || jsIncludes ctx "reposted" || jsIncludes ctx "转推"
  | none => false

/-- Spec-side filter: passes the pinned filter always, and the repost filter
when `excludeRetweets` is set. -/
def passesFilters (excludeRetweets : Bool) (a : Article) : Bool :=
  !(isPinned a) && !(excludeRetweets && isRepost a)

/-! ### The dedup store (`twitter_subscriptions` table) -/

/-- The persisted table, as an association list keyed by account handle. -/
abbrev Db := List (String × String)

/-- `ctx.database.get` followed by `record[0]?.last_tweet_url`. -/
def dbGet : Db → String → Option String
  | [], _ => none
  | p :: rest, id => if p.1 = id then some p.2 else dbGet rest id

/-- `ctx.database.upsert` on the primary key `id`: update the existing row or
append a new one; never deletes. -/
def dbUpsert : Db → String → String → Db
  | [], id, url => [(id, url)]
  | p :: rest, id, url =>
    if p.1 = id then (id, url) :: rest
    else p :: dbUpsert rest id url

/-! ### The subscription poller (`checkAndPushUpdates`) -/

/-- One configured subscription entry. -/
structure SubEntry where
  username : String
  groupIds : List String
  excludeRetweets : Option Bool
  deriving Repr, DecidableEq

/-- The configuration fields the poller reads. -/
structure CycleConfig where
  enableSubscription : Bool
  platform : String
  selfId : String
  plugin : PluginConfig
  subscriptions : List SubEntry

/-- Collaborator outcomes for one poll cycle: bot availability, the
`getLatestTweetUrlByPuppeteer` outcome per account and repost setting
(an exception or a nullable url), the `bot.sendMessage` outcome per account
and destination group, and the resolver environment per tweet url. -/
structure CycleEnv where
  botOnline : Bool
  discover : String → Bool → Except String (Option String)
  sendOk : String → String → Bool
  tweetEnv : String → TweetEnv

/-- The `isNew` computation: `!lastUrl || lastUrl !== latestTweetUrl`. -/
def isNewCheck (lastUrl : Option String) (url : String) : Bool :=
  !(jsTruthy lastUrl) || (lastUrl != some url)

/-- The dispatch loop `for (const groupId of sub.groupIds) await bot.sendMessage(...)`:
destinations are attempted in order; a thrown delivery error stops the loop
(the remaining destinations are not attempted).  Returns the attempted
destinations and whether all succeeded. -/
def dispatchAll (ok : String → Bool) : List String → List String × Bool
  | [] => ([], true)
  | g :: gs =>
    if ok g then
      let r := dispatchAll ok gs
      (g :: r.1, r.2)
    else ([g], false)

/-- Per-entry trace recorded by the model: the entry account, the resolved
message when a push was decided, the destinations actually attempted, and
whether a push was decided (the `updatesFound++` increment). -/
structure EntryTrace where
  username : String
  message : Option ProcessResult
  dispatches : List String
  pushed : Bool
  deriving Repr, DecidableEq

/-- One iteration of the subscription loop body, including its entry-level
try/catch: a malformed entry is skipped; a discovery exception or a falsy
discovery result leaves everything unchanged; otherwise the push decision is
`isNew || (isManualTrigger && latestTweetUrl)`; a delivery exception aborts
the remaining dispatches of this entry and skips the upsert; the upsert runs
only when `isNew` (and no exception occurred before it). -/
def runEntry (cfg : CycleConfig) (env : CycleEnv) (isManual : Bool)
    (db : Db) (sub : SubEntry) : Db × EntryTrace :=
  if sub.username == "" || sub.groupIds.isEmpty then
    (db, ⟨sub.username, none, [], false⟩)
  else
    match env.discover sub.username (sub.excludeRetweets.getD true) with
    | .error _ => (db, ⟨sub.username, none, [], false⟩)
    | .ok urlOpt =>
      if jsTruthy urlOpt then
        if isNewCheck (dbGet db sub.username) (urlOpt.getD "")
            || (isManual && jsTruthy urlOpt) then
          if (dispatchAll (env.sendOk sub.username) sub.groupIds).2 then
            (if isNewCheck (dbGet db sub.username) (urlOpt.getD "") then
               dbUpsert db sub.username (urlOpt.getD "") else db,
             ⟨sub.username,
              some (processTweet (urlOpt.getD "")
                (subscriptionPushOptions cfg.plugin cfg.platform)
                (env.tweetEnv (urlOpt.getD ""))),
              (dispatchAll (env.sendOk sub.username) sub.groupIds).1, true⟩)
          else
            (db,
             ⟨sub.username,
              some (processTweet (urlOpt.getD "")
                (subscriptionPushOptions cfg.plugin cfg.platform)
                (env.tweetEnv (urlOpt.getD ""))),
              (dispatchAll (env.sendOk sub.username) sub.groupIds).1, true⟩)
        else (db, ⟨sub.username, none, [], false⟩)
      else (db, ⟨sub.username, none, [], false⟩)

/-- The subscription loop: entries processed strictly in configured order,
each isolated by its own try/catch, threading the store and accumulating the
traces and the `updatesFound` counter. -/
def runEntries (cfg : CycleConfig) (env : CycleEnv) (isManual : Bool) :
    List SubEntry → Db → Db × List EntryTrace × Nat
  | [], db => (db, [], 0)
  | s :: rest, db =>
    let r := runEntry cfg env isManual db s
    let k := runEntries cfg env isManual rest r.1
    (k.1, r.2 :: k.2.1, (if r.2.pushed then 1 else 0) + k.2.2)

/-- The outcome of one poll cycle. -/
structure CycleResult where
  db : Db
  traces : List EntryTrace
  updatesFound : Nat
  summary : Option String

/-- The user-facing summary of a forced cycle. -/
def manualSummary (n : Nat) : String :=
  "手动检查完成, 共为 " ++ toString n ++ " 个订阅执行了推送任务."

/-- The warning returned by a forced cycle when the push bot is unavailable. -/
def offlineNotice (cfg : CycleConfig) : String :=
  "配置中指定的机器人 [" ++ cfg.platform ++ ":" ++ cfg.selfId ++ "] 不存在或不在线."

/-- Shallow embedding of `checkAndPushUpdates`: the subscription master
switch, the bot availability short-circuit, the entry loop, and the
forced-cycle summary (an unforced cycle returns no value). -/
def checkAndPushUpdates (cfg : CycleConfig) (env : CycleEnv) (isManual : Bool)
    (db : Db) : CycleResult :=
  if !cfg.enableSubscription then ⟨db, [], 0, none⟩
  else if !env.botOnline then
    ⟨db, [], 0, if isManual then some (offlineNotice cfg) else none⟩
  else
    let r := runEntries cfg env isManual cfg.subscriptions db
    ⟨r.1, r.2.1, r.2.2, if isManual then some (manualSummary r.2.2) else none⟩

/-! ### Sample concrete inputs used by the witnesses -/

/-- A sample options snapshot with every content kind enabled. -/
def sampleOpts : TweetOptions :=
  { showLink := false
    showScreenshot := true
    sendText := true
    sendMedia := true
    useForward := false
    platform := some "onebot"
    enableTranslation := false
    targetLang := some "zh-CN" }

/-- Three media descriptors, the middle one will fail to download. -/
def sampleMedia : List MediaDesc :=
  [⟨"image", "http://m/1"⟩, ⟨"image", "http://m/2"⟩, ⟨"video", "http://m/3"⟩]

/-- A sample successful API response with three media descriptors. -/
def sampleResp : ApiResponse :=
  { user_screen_name := some "alice"
    text := some "hello"
    media_extended := some sampleMedia }

/-- A download collaborator that fails exactly on the second descriptor. -/
def sampleDownload : MediaDesc → Except String MediaFile :=
  fun m => if m.url = "http://m/2" then .error "timeout" else .ok ⟨"bytes-" ++ m.url, "image/jpeg"⟩

/-- Environment in which the metadata fetch fails but the screenshot succeeded. -/
def sampleEnvApiFail : TweetEnv :=
  { screenshot := .ok "shotbytes"
    api := .error "boom"
    download := sampleDownload
    translation := none }

/-- Environment in which the metadata fetch succeeds and one download fails. -/
def sampleEnvOk : TweetEnv :=
  { screenshot := .ok "shotbytes"
    api := .ok sampleResp
    download := sampleDownload
    translation := none }

/-! ### Claim theorems for the content resolver -/

/-- Claim C1: for every post reference and options, if the metadata fetch
fails then `processTweet` aborts and returns the failure-notice message: its
sole text segment is the failure notice and its media segment list is empty,
even when a screenshot was captured earlier in the same call. -/
theorem c1_metadata_failure_total (url : String) (opts : TweetOptions)
    (env : TweetEnv) (e : String) (h : env.api = .error e) :
    processTweet url opts env = .failure e
    ∧ (processTweet url opts env).textSegments = ["获取推文内容失败: " ++ e]
    ∧ (processTweet url opts env).mediaSegments = [] := by
  have hp : processTweet url opts env = .failure e := by
    unfold processTweet
    rw [h]
  exact ⟨hp, by rw [hp]; rfl, by rw [hp]; rfl⟩

/-- Witness for C1: a concrete environment whose screenshot succeeded but
whose metadata fetch failed. -/
theorem c1_metadata_failure_total_witness :
    sampleEnvApiFail.api = Except.error "boom"
    ∧ (processTweet "https://x.com/a/status/1" sampleOpts sampleEnvApiFail
        = ProcessResult.failure "boom"
      ∧ (processTweet "https://x.com/a/status/1" sampleOpts sampleEnvApiFail).textSegments
          = ["获取推文内容失败: " ++ "boom"]
      ∧ (processTweet "https://x.com/a/status/1" sampleOpts sampleEnvApiFail).mediaSegments
          = []) :=
  ⟨rfl, c1_metadata_failure_total "https://x.com/a/status/1" sampleOpts sampleEnvApiFail "boom" rfl⟩

/-- Claim C7: with `showScreenshot` off the screenshot collaborator outcome is
irrelevant: two runs differing only in the screenshot outcome (one may even be
a capture failure) return identical results. -/
theorem c7_screenshot_off_noninterference (url : String) (opts : TweetOptions)
    (s1 s2 : Except String String) (api : Except String ApiResponse)
    (dl : MediaDesc → Except String MediaFile) (tr : Option String)
    (h : opts.showScreenshot = false) :
    processTweet url opts ⟨s1, api, dl, tr⟩ = processTweet url opts ⟨s2, api, dl, tr⟩ := by
  cases api with
  | error e => rfl
  | ok resp =>
    simp only [processTweet, screenshotElem, downloadedMedia, h, Bool.false_eq_true, if_false]

/-- Witness for C7: screenshot success versus capture failure, same result. -/
theorem c7_screenshot_off_noninterference_witness :
    ({ sampleOpts with showScreenshot := false } : TweetOptions).showScreenshot = false
    ∧ processTweet "https://x.com/a/status/1" { sampleOpts with showScreenshot := false }
        ⟨.ok "shotbytes", .ok sampleResp, sampleDownload, none⟩
      = processTweet "https://x.com/a/status/1" { sampleOpts with showScreenshot := false }
        ⟨.error "capture timeout", .ok sampleResp, sampleDownload, none⟩ :=
  ⟨rfl, c7_screenshot_off_noninterference "https://x.com/a/status/1"
    { sampleOpts with showScreenshot := false }
    (.ok "shotbytes") (.error "capture timeout") (.ok sampleResp) sampleDownload none rfl⟩

/-- Claim C10: the middleware (manual parse) call site hard-codes
`showLink := false`, so a manual resolution never seeds the raw reference URL
into the text segments, while the subscription push call site passes the
`sub_showLink` configuration value. -/
theorem c10_manual_parse_never_seeds_link (c : PluginConfig) (platform url : String) :
    (manualParseOptions c platform).showLink = false
    ∧ seedLink url (manualParseOptions c platform) = []
    ∧ (subscriptionPushOptions c platform).showLink = c.sub_showLink := by
  refine ⟨rfl, ?_, rfl⟩
  simp [seedLink, manualParseOptions]

/-- With `sendMedia` on, the download loop yields exactly the per-descriptor
`mediaSeg` results: failed items are skipped, the rest are consulted in order. -/
theorem downloadedMedia_eq (opts : TweetOptions) (env : TweetEnv) (resp : ApiResponse)
    (hm : opts.sendMedia = true) :
    downloadedMedia opts env resp
      = (resp.media_extended.getD []).filterMap (mediaSeg env.download) := by
  unfold downloadedMedia
  rw [hm]
  cases h : resp.media_extended <;> simp

/-- Claim C6: with media sending enabled and a successful metadata fetch, a
per-item download failure skips only that item: the media segments are exactly
the per-descriptor download outcomes (every descriptor is consulted, in
order, successes kept and failures dropped), and as long as the result is not
the no-content fallback, the text segments equal `mainTexts`, a value that
does not depend on the download collaborator at all — no error text about a
failed item is ever added. -/
theorem c6_media_failure_isolated (url : String) (opts : TweetOptions)
    (env : TweetEnv) (resp : ApiResponse)
    (hapi : env.api = .ok resp) (hm : opts.sendMedia = true) :
    (processTweet url opts env).mediaSegments
      = (screenshotElem opts env).toList
        ++ (resp.media_extended.getD []).filterMap (mediaSeg env.download)
    ∧ (processTweet url opts env ≠ .noContent →
        (processTweet url opts env).textSegments = mainTexts url opts env.translation resp) := by
  have hdm := downloadedMedia_eq opts env resp hm
  unfold processTweet
  rw [hapi]
  dsimp only
  by_cases he : ((allTextParts url opts env.translation resp).isEmpty
      && ((screenshotElem opts env).toList ++ downloadedMedia opts env resp).isEmpty) = true
  · rw [if_pos he]
    constructor
    · have h2 : ((screenshotElem opts env).toList ++ downloadedMedia opts env resp).isEmpty = true :=
        (Bool.and_eq_true _ _ |>.mp he).2
      rw [List.isEmpty_iff] at h2
      rw [← hdm, h2]
      rfl
    · intro hne
      exact absurd rfl hne
  · rw [if_neg he]
    exact ⟨by rw [← hdm]; rfl, fun _ => rfl⟩

/-- Witness for C6: three media items, the second fails to download; the
other two appear and the text segments carry no error text. -/
theorem c6_media_failure_isolated_witness :
    sampleEnvOk.api = Except.ok sampleResp
    ∧ sampleOpts.sendMedia = true
    ∧ ((processTweet "https://x.com/a/status/1" sampleOpts sampleEnvOk).mediaSegments
        = (screenshotElem sampleOpts sampleEnvOk).toList
          ++ (sampleResp.media_extended.getD []).filterMap (mediaSeg sampleEnvOk.download)
      ∧ (processTweet "https://x.com/a/status/1" sampleOpts sampleEnvOk ≠ .noContent →
          (processTweet "https://x.com/a/status/1" sampleOpts sampleEnvOk).textSegments
            = mainTexts "https://x.com/a/status/1" sampleOpts sampleEnvOk.translation sampleResp)) :=
  ⟨rfl, rfl,
    c6_media_failure_isolated "https://x.com/a/status/1" sampleOpts sampleEnvOk sampleResp rfl rfl⟩

/-- The media list the C6 witness resolves to: the screenshot first, then the
two surviving downloads; the failed second descriptor is absent and the text
segments mention only the identity line and the body. -/
theorem mediaSegments_concrete_eval :
    (processTweet "https://x.com/a/status/1" sampleOpts sampleEnvOk).mediaSegments
      = [.image "shotbytes" "image/png",
         .image "bytes-http://m/1" "image/jpeg",
         .video "bytes-http://m/3" "image/jpeg"]
    ∧ (processTweet "https://x.com/a/status/1" sampleOpts sampleEnvOk).textSegments
      = ["用户ID: alice\n推文内容: hello"] := by
  constructor <;> rfl

/-- The skip test equals: pinned, or (when configured) repost. -/
theorem skipArticle_eq (excl : Bool) (a : Article) :
    skipArticle excl a = (isPinned a || (excl && isRepost a)) := by
  rcases a with ⟨sc, sl⟩
  cases sc with
  | none => simp [skipArticle, isPinned, isRepost]
  | some ctx =>
    simp only [skipArticle, isPinned, isRepost]
    cases h1 : jsIncludes ctx "Pinned" <;>
      cases h2 : (excl && (jsIncludes ctx "Retweeted" || jsIncludes ctx "reposted"
        || jsIncludes ctx "转推")) <;>
      simp [h1, h2]

/-- The discovery filter passes exactly the non-skipped articles. -/
theorem passesFilters_eq_not_skip (excl : Bool) (a : Article) :
    passesFilters excl a = !(skipArticle excl a) := by
  rw [skipArticle_eq]
  unfold passesFilters
  cases isPinned a <;> cases (excl && isRepost a) <;> simp

/-- When every article carries a status link, the discovery loop returns the
status link of the first article passing the filters. -/
theorem findLatestTweetUrl_eq_find (excl : Bool) (articles : List Article)
    (hl : ∀ a ∈ articles, a.statusLink.isSome = true) :
    findLatestTweetUrl excl articles
      = (articles.find? (fun a => passesFilters excl a)).bind Article.statusLink := by
  induction articles with
  | nil => rfl
  | cons a rest ih =>
    have hrest : ∀ b ∈ rest, b.statusLink.isSome = true :=
      fun b hb => hl b (List.mem_cons_of_mem a hb)
    have hpa := passesFilters_eq_not_skip excl a
    unfold findLatestTweetUrl
    cases hs : skipArticle excl a with
    | true =>
      have hp : passesFilters excl a = false := by rw [hpa, hs]; rfl
      rw [List.find?_cons_of_neg _ (by simp [hp]), ih hrest]
      simp
    | false =>
      have hp : passesFilters excl a = true := by rw [hpa, hs]; rfl
      obtain ⟨href, hh⟩ := Option.isSome_iff_exists.mp (hl a (List.mem_cons_self a rest))
      rw [List.find?_cons_of_pos _ (by simp [hp])]
      simp [hh]

/-- Claim C5: in the discovery loop the pinned filter applies to every post
for both values of `excludeRetweets`, the repost filter applies only when
`excludeRetweets` is on (with it off the skip test is exactly the pinned
test), and on a page where every post exposes a status link the discovery
result is the link of the first post in document order passing both filters
(null when none does). -/
theorem c5_discovery_filters (excl : Bool) (articles : List Article) (a : Article)
    (hl : ∀ b ∈ articles, b.statusLink.isSome = true) :
    skipArticle excl a = (isPinned a || (excl && isRepost a))
    ∧ skipArticle false a = isPinned a
    ∧ findLatestTweetUrl excl articles
        = (articles.find? (fun b => passesFilters excl b)).bind Article.statusLink := by
  refine ⟨skipArticle_eq excl a, ?_, findLatestTweetUrl_eq_find excl articles hl⟩
  rw [skipArticle_eq]
  simp

/-- A concrete account page: a pinned post, a repost, then an ordinary post. -/
def sampleArticles : List Article :=
  [⟨some "Pinned", some "https://x.com/a/status/1"⟩,
   ⟨some "Bob reposted", some "https://x.com/a/status/2"⟩,
   ⟨none, some "https://x.com/a/status/3"⟩]

/-- Witness for C5, instantiated at the repost article of the sample page
with the repost filter on. -/
theorem c5_discovery_filters_witness :
    skipArticle true ⟨some "Bob reposted", some "https://x.com/a/status/2"⟩
      = (isPinned ⟨some "Bob reposted", some "https://x.com/a/status/2"⟩
         || (true && isRepost ⟨some "Bob reposted", some "https://x.com/a/status/2"⟩))
    ∧ skipArticle false ⟨some "Bob reposted", some "https://x.com/a/status/2"⟩
      = isPinned ⟨some "Bob reposted", some "https://x.com/a/status/2"⟩
    ∧ findLatestTweetUrl true sampleArticles
      = (sampleArticles.find? (fun b => passesFilters true b)).bind Article.statusLink :=
  c5_discovery_filters true sampleArticles
    ⟨some "Bob reposted", some "https://x.com/a/status/2"⟩ (by decide)

/-- Sanity evaluation behind the C5 witness: with the repost filter on the
third post is discovered, with it off the repost itself is discovered, and
the pinned post never is. -/
theorem discovery_concrete_eval :
    findLatestTweetUrl true sampleArticles = some "https://x.com/a/status/3"
    ∧ findLatestTweetUrl false sampleArticles = some "https://x.com/a/status/2" := by
  constructor <;> rfl

/-! ### Store and poller lemmas -/

/-- After an upsert, reading the upserted key yields the new value. -/
theorem dbGet_upsert_self (db : Db) (i u : String) :
    dbGet (dbUpsert db i u) i = some u := by
  induction db with
  | nil => simp [dbUpsert, dbGet]
  | cons p rest ih =>
    by_cases h : p.1 = i
    · simp [dbUpsert, dbGet, h]
    · simp [dbUpsert, dbGet, h, ih]

/-- After an upsert, every other key reads as before. -/
theorem dbGet_upsert_other (db : Db) (i u k : String) (h : k ≠ i) :
    dbGet (dbUpsert db i u) k = dbGet db k := by
  induction db with
  | nil =>
    simp only [dbUpsert, dbGet]
    rw [if_neg (fun hik => h hik.symm)]
  | cons p rest ih =>
    by_cases hp : p.1 = i
    · simp only [dbUpsert, if_pos hp, dbGet]
      rw [if_neg (fun hik => h hik.symm), if_neg (by rw [hp]; exact fun hik => h hik.symm)]
    · simp only [dbUpsert, if_neg hp, dbGet]
      by_cases hk : p.1 = k
      · rw [if_pos hk, if_pos hk]
      · rw [if_neg hk, if_neg hk, ih]

/-- An upsert never deletes: a key that read as present still reads as present. -/
theorem dbGet_upsert_isSome (db : Db) (i u k : String)
    (h : (dbGet db k).isSome = true) :
    (dbGet (dbUpsert db i u) k).isSome = true := by
  by_cases hk : k = i
  · subst hk
    rw [dbGet_upsert_self]
    rfl
  · rw [dbGet_upsert_other db i u k hk]
    exact h

/-- A truthy nullable string is a concrete nonempty string. -/
theorem jsTruthy_eq_true_iff (o : Option String) :
    jsTruthy o = true ↔ ∃ s, o = some s ∧ s ≠ "" := by
  cases o with
  | none => simp [jsTruthy]
  | some s => simp [jsTruthy]

/-- Store effect of one entry: either the store is untouched, or the entry
upserted its own account with a discovered, truthy, new reference. -/
theorem runEntry_db_cases (cfg : CycleConfig) (env : CycleEnv) (m : Bool)
    (db : Db) (sub : SubEntry) :
    (runEntry cfg env m db sub).1 = db
    ∨ ∃ u, env.discover sub.username (sub.excludeRetweets.getD true) = .ok (some u)
        ∧ u ≠ ""
        ∧ isNewCheck (dbGet db sub.username) u = true
        ∧ (runEntry cfg env m db sub).1 = dbUpsert db sub.username u := by
  unfold runEntry
  by_cases h0 : (sub.username == "" || sub.groupIds.isEmpty) = true
  · rw [if_pos h0]
    left; rfl
  · rw [if_neg h0]
    cases hd : env.discover sub.username (sub.excludeRetweets.getD true) with
    | error e => left; rfl
    | ok urlOpt =>
      cases urlOpt with
      | none => left; rfl
      | some u =>
        dsimp only
        by_cases hu : u = ""
        · subst hu
          left
          simp [jsTruthy]
        · have ht : jsTruthy (some u) = true := by simp [jsTruthy, hu]
          rw [ht]
          cases hnew : isNewCheck (dbGet db sub.username) ((some u).getD "") with
          | true =>
            cases hatt : (dispatchAll (env.sendOk sub.username) sub.groupIds).2 with
            | true =>
              right
              refine ⟨u, rfl, hu, by simpa using hnew, ?_⟩
              simp [hatt, hnew]
            | false =>
              left
              simp [hatt, hnew]
          | false =>
            cases m with
            | true =>
              cases hatt : (dispatchAll (env.sendOk sub.username) sub.groupIds).2 with
              | true => left; simp [hatt, hnew]
              | false => left; simp [hatt, hnew]
            | false => left; simp [hnew]

/-- The trace always carries the own account handle of the entry. -/
theorem runEntry_username (cfg : CycleConfig) (env : CycleEnv) (m : Bool)
    (db : Db) (sub : SubEntry) :
    (runEntry cfg env m db sub).2.username = sub.username := by
  unfold runEntry
  repeat' split <;> try rfl

/-- Frame: one entry never touches the record of a different account. -/
theorem runEntry_frame (cfg : CycleConfig) (env : CycleEnv) (m : Bool)
    (db : Db) (sub : SubEntry) (k : String) (hk : k ≠ sub.username) :
    dbGet (runEntry cfg env m db sub).1 k = dbGet db k := by
  rcases runEntry_db_cases cfg env m db sub with h | ⟨u, _, _, _, h⟩
  · rw [h]
  · rw [h, dbGet_upsert_other db sub.username u k hk]

/-- One entry never deletes any record. -/
theorem runEntry_noDelete (cfg : CycleConfig) (env : CycleEnv) (m : Bool)
    (db : Db) (sub : SubEntry) (k : String) (h : (dbGet db k).isSome = true) :
    (dbGet (runEntry cfg env m db sub).1 k).isSome = true := by
  rcases runEntry_db_cases cfg env m db sub with h1 | ⟨u, _, _, _, h1⟩
  · rw [h1]; exact h
  · rw [h1]; exact dbGet_upsert_isSome db sub.username u k h

/-- A rediscovered reference equal to the stored one is not new. -/
theorem isNewCheck_self (u : String) (hne : u ≠ "") :
    isNewCheck (some u) u = false := by
  simp [isNewCheck, jsTruthy, hne]

/-- For a truthy discovered reference the `isNew` computation agrees with
`record absent OR stored reference differs`. -/
theorem isNewCheck_spec (lastUrl : Option String) (u : String) (hne : u ≠ "") :
    isNewCheck lastUrl u = ((lastUrl == none) || (lastUrl != some u)) := by
  cases lastUrl with
  | none => simp [isNewCheck, jsTruthy]
  | some s =>
    by_cases hs : s = ""
    · subst hs
      simp [isNewCheck, jsTruthy, bne, Ne.symm hne]
    · simp [isNewCheck, jsTruthy, hs]

/-- The dispatch loop attempts the destinations in order up to and including
the first failing one, and succeeds as a whole exactly when all succeed. -/
theorem dispatchAll_eq (ok : String → Bool) (gs : List String) :
    dispatchAll ok gs
      = (gs.takeWhile ok ++ (gs.dropWhile ok).take 1, gs.all ok) := by
  induction gs with
  | nil => rfl
  | cons g gs ih =>
    unfold dispatchAll
    cases h : ok g with
    | false => simp [List.takeWhile_cons, List.dropWhile_cons, h]
    | true => simp [List.takeWhile_cons, List.dropWhile_cons, h, ih]

/-- The trace of an entry whose push was decided: the push flag is set, the
resolved message is recorded and the dispatch loop ran on the destination set. -/
theorem runEntry_push_trace (cfg : CycleConfig) (env : CycleEnv) (m : Bool)
    (db : Db) (sub : SubEntry) (u : String)
    (hu : sub.username ≠ "") (hg : sub.groupIds ≠ [])
    (hd : env.discover sub.username (sub.excludeRetweets.getD true) = .ok (some u))
    (hne : u ≠ "")
    (hp : (isNewCheck (dbGet db sub.username) u || m) = true) :
    (runEntry cfg env m db sub).2
      = ⟨sub.username,
         some (processTweet u (subscriptionPushOptions cfg.plugin cfg.platform)
           (env.tweetEnv u)),
         (dispatchAll (env.sendOk sub.username) sub.groupIds).1, true⟩ := by
  have h0 : ¬((sub.username == "" || sub.groupIds.isEmpty) = true) := by
    simp [hu, hg]
  unfold runEntry
  rw [if_neg h0, hd]
  dsimp only
  have ht : jsTruthy (some u) = true := by simp [jsTruthy, hne]
  rw [ht]
  simp only [Option.getD_some, Bool.and_true]
  rw [hp]
  cases hatt : (dispatchAll (env.sendOk sub.username) sub.groupIds).2 <;> simp [hatt]

/-- An unforced entry whose discovered reference equals the stored one does
nothing: no push, no dispatch, store untouched. -/
theorem runEntry_nopush (cfg : CycleConfig) (env : CycleEnv)
    (db : Db) (sub : SubEntry) (u : String)
    (hu : sub.username ≠ "") (hg : sub.groupIds ≠ [])
    (hd : env.discover sub.username (sub.excludeRetweets.getD true) = .ok (some u))
    (hne : u ≠ "")
    (hdb : dbGet db sub.username = some u) :
    runEntry cfg env false db sub = (db, ⟨sub.username, none, [], false⟩) := by
  have h0 : ¬((sub.username == "" || sub.groupIds.isEmpty) = true) := by
    simp [hu, hg]
  unfold runEntry
  rw [if_neg h0, hd]
  dsimp only
  have ht : jsTruthy (some u) = true := by simp [jsTruthy, hne]
  rw [ht]
  simp only [Option.getD_some, Bool.and_true, Bool.false_and, Bool.or_false]
  rw [hdb, isNewCheck_self u hne]
  simp

/-- The push flag equals `isNew OR forced` for an entry with a wellformed
configuration and a truthy discovery. -/
theorem runEntry_pushed (cfg : CycleConfig) (env : CycleEnv) (m : Bool)
    (db : Db) (sub : SubEntry) (u : String)
    (hu : sub.username ≠ "") (hg : sub.groupIds ≠ [])
    (hd : env.discover sub.username (sub.excludeRetweets.getD true) = .ok (some u))
    (hne : u ≠ "") :
    (runEntry cfg env m db sub).2.pushed
      = (isNewCheck (dbGet db sub.username) u || m) := by
  cases hp : (isNewCheck (dbGet db sub.username) u || m) with
  | true =>
    rw [runEntry_push_trace cfg env m db sub u hu hg hd hne hp]
  | false =>
    have hparts := Bool.or_eq_false_iff.mp hp
    have hm : m = false := hparts.2
    have hdb : dbGet db sub.username = some u := by
      have hn := hparts.1
      unfold isNewCheck at hn
      have hn2 := Bool.or_eq_false_iff.mp hn
      have h2 := hn2.2
      simpa using h2
    subst hm
    rw [runEntry_nopush cfg env db sub u hu hg hd hne hdb]

/-- Every configured entry is processed: one trace per entry, regardless of
failures in earlier entries. -/
theorem runEntries_length (cfg : CycleConfig) (env : CycleEnv) (m : Bool)
    (subs : List SubEntry) (db : Db) :
    (runEntries cfg env m subs db).2.1.length = subs.length := by
  induction subs generalizing db with
  | nil => rfl
  | cons s rest ih =>
    unfold runEntries
    simp [ih]

/-- The `updatesFound` counter equals the number of pushed traces. -/
theorem runEntries_count (cfg : CycleConfig) (env : CycleEnv) (m : Bool)
    (subs : List SubEntry) (db : Db) :
    (runEntries cfg env m subs db).2.2
      = (runEntries cfg env m subs db).2.1.countP (fun t => t.pushed) := by
  induction subs generalizing db with
  | nil => rfl
  | cons s rest ih =>
    unfold runEntries
    simp only [List.countP_cons, ih]
    cases (runEntry cfg env m db s).2.pushed <;> simp [Nat.add_comm]

/-- Frame over a whole pass: a key not named by any entry is untouched. -/
theorem runEntries_frame (cfg : CycleConfig) (env : CycleEnv) (m : Bool)
    (subs : List SubEntry) (db : Db) (k : String)
    (hk : k ∉ subs.map SubEntry.username) :
    dbGet (runEntries cfg env m subs db).1 k = dbGet db k := by
  induction subs generalizing db with
  | nil => rfl
  | cons s rest ih =>
    have hks : k ≠ s.username := by
      intro h
      exact hk (by simp [h])
    have hkr : k ∉ rest.map SubEntry.username := by
      intro h
      apply hk
      simp only [List.map_cons, List.mem_cons]
      exact Or.inr h
    unfold runEntries
    dsimp only
    rw [ih _, runEntry_frame cfg env m db s k hks]
    exact hkr

/-- No record is ever deleted across a whole pass. -/
theorem runEntries_noDelete (cfg : CycleConfig) (env : CycleEnv) (m : Bool)
    (subs : List SubEntry) (db : Db) (k : String)
    (h : (dbGet db k).isSome = true) :
    (dbGet (runEntries cfg env m subs db).1 k).isSome = true := by
  induction subs generalizing db with
  | nil => exact h
  | cons s rest ih =>
    unfold runEntries
    dsimp only
    exact ih _ (runEntry_noDelete cfg env m db s k h)

/-- Forced-cycle dedup preservation over a pass: when every entry for account
`a` is wellformed and rediscovers exactly the stored reference, the record of
`a` survives the pass unchanged and every trace for `a` carries a push. -/
theorem runEntries_preserve (cfg : CycleConfig) (env : CycleEnv) (m : Bool)
    (subs : List SubEntry) (db : Db) (a url : String)
    (ha : a ≠ "") (hurl : url ≠ "")
    (hs : ∀ s ∈ subs, s.username = a →
          s.groupIds ≠ [] ∧ env.discover a (s.excludeRetweets.getD true) = .ok (some url))
    (hdb : dbGet db a = some url) :
    dbGet (runEntries cfg env m subs db).1 a = some url
    ∧ (m = true → ∀ t ∈ (runEntries cfg env m subs db).2.1,
        t.username = a → t.pushed = true) := by
  induction subs generalizing db with
  | nil => exact ⟨hdb, fun _ t ht => absurd ht (List.not_mem_nil t)⟩
  | cons s rest ih =>
    have hsrest : ∀ s2 ∈ rest, s2.username = a →
        s2.groupIds ≠ [] ∧ env.discover a (s2.excludeRetweets.getD true) = .ok (some url) :=
      fun s2 h2 => hs s2 (List.mem_cons_of_mem s h2)
    have hstep : dbGet (runEntry cfg env m db s).1 a = some url := by
      by_cases hsa : s.username = a
      · rcases runEntry_db_cases cfg env m db s with h1 | ⟨u, hd2, hu2, hnew, h1⟩
        · rw [h1]; exact hdb
        · obtain ⟨hg, hd⟩ := hs s (List.mem_cons_self s rest) hsa
          rw [hsa, hd] at hd2
          have huu : u = url := by
            injection hd2 with h
            injection h with h
            exact h.symm
          subst huu
          rw [hsa, hdb, isNewCheck_self u hurl] at hnew
          exact absurd hnew (by simp)
      · rw [runEntry_frame cfg env m db s a (fun h => hsa h.symm)]
        exact hdb
    unfold runEntries
    dsimp only
    refine ⟨(ih _ hsrest hstep).1, ?_⟩
    intro hm t htmem hta
    rcases List.mem_cons.mp htmem with h1 | h1
    · subst h1
      rw [runEntry_username cfg env m db s] at hta
      obtain ⟨hg, hd⟩ := hs s (List.mem_cons_self s rest) hta
      subst hm
      rw [runEntry_pushed cfg env true db s url (by rw [hta]; exact ha) hg
        (by rw [hta]; exact hd) hurl]
      simp
    · exact (ih _ hsrest hstep).2 hm t h1 hta

/-- With the subscription switch on and the push bot online, a cycle is the
entry pass plus the forced-cycle summary. -/
theorem checkAndPushUpdates_run (cfg : CycleConfig) (env : CycleEnv) (m : Bool)
    (db : Db) (hen : cfg.enableSubscription = true) (hon : env.botOnline = true) :
    checkAndPushUpdates cfg env m db
      = ⟨(runEntries cfg env m cfg.subscriptions db).1,
         (runEntries cfg env m cfg.subscriptions db).2.1,
         (runEntries cfg env m cfg.subscriptions db).2.2,
         if m then some (manualSummary (runEntries cfg env m cfg.subscriptions db).2.2)
         else none⟩ := by
  unfold checkAndPushUpdates
  rw [hen, hon]
  rfl

/-- The store after a cycle: unchanged by the early exits, or the result of
the entry pass. -/
theorem checkAndPushUpdates_db_cases (cfg : CycleConfig) (env : CycleEnv)
    (m : Bool) (db : Db) :
    (checkAndPushUpdates cfg env m db).db = db
    ∨ (checkAndPushUpdates cfg env m db).db
        = (runEntries cfg env m cfg.subscriptions db).1 := by
  unfold checkAndPushUpdates
  cases cfg.enableSubscription with
  | false => left; rfl
  | true =>
    cases env.botOnline with
    | false => left; rfl
    | true => right; rfl

/-! ### Concrete poller inputs for witnesses and the counterexample -/

/-- A sample plugin configuration. -/
def samplePlugin : PluginConfig :=
  { showScreenshot := true
    sendText := true
    sendMedia := true
    useForward := false
    sub_showLink := true
    sub_showScreenshot := true
    sub_sendText := true
    sub_sendMedia := true
    sub_useForward := false
    parse_enableTranslation := false
    parse_targetLang := "zh-CN"
    sub_enableTranslation := false
    sub_targetLang := "zh-CN" }

/-- A sample subscription entry with two destination groups. -/
def sampleSub : SubEntry :=
  { username := "alice", groupIds := ["g1", "g2"], excludeRetweets := none }

/-- A sample cycle configuration with the subscription switch on. -/
def sampleCycleCfg : CycleConfig :=
  { enableSubscription := true
    platform := "onebot"
    selfId := "123"
    plugin := samplePlugin
    subscriptions := [sampleSub] }

/-- The reference discovered for the sample account. -/
def sampleUrl : String := "https://x.com/alice/status/9"

/-- A cycle environment in which every delivery succeeds. -/
def sampleCycleEnv : CycleEnv :=
  { botOnline := true
    discover := fun _ _ => .ok (some sampleUrl)
    sendOk := fun _ _ => true
    tweetEnv := fun _ => sampleEnvOk }

/-- A cycle environment in which delivery to the first group fails. -/
def failSendEnv : CycleEnv :=
  { botOnline := true
    discover := fun _ _ => .ok (some sampleUrl)
    sendOk := fun _ g => g != "g1"
    tweetEnv := fun _ => sampleEnvOk }

/-! ### Claim theorems for the subscription poller -/

/-- Counterexample to claim C2: in a concrete cycle with destinations
`g1, g2` where delivery to `g1` throws, the error propagates to the entry
level, so `g2` is never attempted — the attempted dispatch list of the entry
is exactly `[g1]`. -/
theorem c2_counterexample_dispatch_aborts :
    failSendEnv.sendOk "alice" "g1" = false
    ∧ sampleCycleCfg.subscriptions.map (fun s => s.groupIds) = [["g1", "g2"]]
    ∧ (checkAndPushUpdates sampleCycleCfg failSendEnv false []).traces.map
        (fun t => t.dispatches) = [["g1"]] := by
  refine ⟨rfl, rfl, ?_⟩
  rfl

/-- Claim C2 (amended): for an entry whose push was decided, dispatch is
attempted to the destinations in set order but stops at the first failing
destination (the delivery error is caught at entry level, so on an all-success
run every destination is attempted); a failure inside one entry does not
prevent the processing of subsequent entries — every configured entry of a
cycle yields a trace. -/
theorem c2_amended_dispatch_ordered_until_failure (cfg : CycleConfig)
    (env : CycleEnv) (m : Bool) (db : Db) (sub : SubEntry) (u : String)
    (cfg2 : CycleConfig) (env2 : CycleEnv) (m2 : Bool) (db2 : Db)
    (hu : sub.username ≠ "") (hg : sub.groupIds ≠ [])
    (hd : env.discover sub.username (sub.excludeRetweets.getD true) = .ok (some u))
    (hne : u ≠ "")
    (hp : (isNewCheck (dbGet db sub.username) u || m) = true)
    (hen : cfg2.enableSubscription = true) (hon : env2.botOnline = true) :
    (runEntry cfg env m db sub).2.dispatches
      = sub.groupIds.takeWhile (env.sendOk sub.username)
        ++ (sub.groupIds.dropWhile (env.sendOk sub.username)).take 1
    ∧ (checkAndPushUpdates cfg2 env2 m2 db2).traces.length
        = cfg2.subscriptions.length := by
  constructor
  · rw [runEntry_push_trace cfg env m db sub u hu hg hd hne hp]
    dsimp only
    rw [dispatchAll_eq]
  · rw [checkAndPushUpdates_run cfg2 env2 m2 db2 hen hon]
    exact runEntries_length cfg2 env2 m2 cfg2.subscriptions db2

/-- Witness for the amended C2: the failing-delivery entry attempts exactly
up to the first failure, and the cycle still traces its one entry. -/
theorem c2_amended_dispatch_ordered_until_failure_witness :
    (runEntry sampleCycleCfg failSendEnv false [] sampleSub).2.dispatches
      = sampleSub.groupIds.takeWhile (failSendEnv.sendOk sampleSub.username)
        ++ (sampleSub.groupIds.dropWhile (failSendEnv.sendOk sampleSub.username)).take 1
    ∧ (checkAndPushUpdates sampleCycleCfg failSendEnv false []).traces.length
        = sampleCycleCfg.subscriptions.length :=
  c2_amended_dispatch_ordered_until_failure sampleCycleCfg failSendEnv false [] sampleSub
    sampleUrl sampleCycleCfg failSendEnv false []
    (by decide) (by decide) rfl (by decide) (by decide) rfl rfl

/-- Claim C4: for a wellformed entry with a truthy discovery, the `isNew`
computation agrees with `record absent OR stored reference differs from the
discovered one`, the push flag is exactly `isNew OR forced`, and an unforced
entry with an unchanged reference performs no push, attempts no dispatch and
leaves the record untouched. -/
theorem c4_isnew_and_push_decision (cfg : CycleConfig) (env : CycleEnv) (m : Bool)
    (db : Db) (sub : SubEntry) (u : String)
    (hu : sub.username ≠ "") (hg : sub.groupIds ≠ [])
    (hd : env.discover sub.username (sub.excludeRetweets.getD true) = .ok (some u))
    (hne : u ≠ "") :
    isNewCheck (dbGet db sub.username) u
      = ((dbGet db sub.username == none) || (dbGet db sub.username != some u))
    ∧ (runEntry cfg env m db sub).2.pushed
        = (isNewCheck (dbGet db sub.username) u || m)
    ∧ (m = false → dbGet db sub.username = some u →
        runEntry cfg env m db sub = (db, ⟨sub.username, none, [], false⟩)) := by
  refine ⟨isNewCheck_spec (dbGet db sub.username) u hne,
    runEntry_pushed cfg env m db sub u hu hg hd hne, ?_⟩
  intro hm hdb
  subst hm
  exact runEntry_nopush cfg env db sub u hu hg hd hne hdb

/-- Witness for C4: unforced cycle entry whose stored reference equals the
discovered one. -/
theorem c4_isnew_and_push_decision_witness :
    (isNewCheck (dbGet [("alice", sampleUrl)] "alice") sampleUrl
      = ((dbGet [("alice", sampleUrl)] "alice" == none)
         || (dbGet [("alice", sampleUrl)] "alice" != some sampleUrl)))
    ∧ (runEntry sampleCycleCfg sampleCycleEnv false [("alice", sampleUrl)] sampleSub).2.pushed
        = (isNewCheck (dbGet [("alice", sampleUrl)] "alice") sampleUrl || false)
    ∧ (false = false → dbGet [("alice", sampleUrl)] "alice" = some sampleUrl →
        runEntry sampleCycleCfg sampleCycleEnv false [("alice", sampleUrl)] sampleSub
          = ([("alice", sampleUrl)], ⟨"alice", none, [], false⟩)) :=
  c4_isnew_and_push_decision sampleCycleCfg sampleCycleEnv false
    [("alice", sampleUrl)] sampleSub sampleUrl
    (by decide) (by decide) rfl (by decide)

/-- Claim C3: the dedup record is written only when `isNew` holds — an entry
whose discovered reference is not new leaves the store untouched — and in a
forced cycle in which every entry of account `a` rediscovers exactly the
stored reference (`isNew=false`), those entries push but the stored record of
`a` after the cycle is exactly the record before it. -/
theorem c3_record_written_only_if_new (cfg : CycleConfig) (env : CycleEnv)
    (db : Db) (a url : String)
    (cfg2 : CycleConfig) (env2 : CycleEnv) (m2 : Bool) (db2 : Db)
    (s2 : SubEntry) (u2 : String)
    (hen : cfg.enableSubscription = true) (hon : env.botOnline = true)
    (ha : a ≠ "") (hurl : url ≠ "")
    (hs : ∀ s ∈ cfg.subscriptions, s.username = a →
          s.groupIds ≠ [] ∧ env.discover a (s.excludeRetweets.getD true) = .ok (some url))
    (hdb : dbGet db a = some url)
    (hd2 : env2.discover s2.username (s2.excludeRetweets.getD true) = .ok (some u2)) :
    (isNewCheck (dbGet db2 s2.username) u2 = false →
      (runEntry cfg2 env2 m2 db2 s2).1 = db2)
    ∧ dbGet (checkAndPushUpdates cfg env true db).db a = some url
    ∧ (checkAndPushUpdates cfg env true db).traces.all
        (fun t => !(t.username == a) || t.pushed) = true := by
  refine ⟨?_, ?_, ?_⟩
  · intro hnot
    rcases runEntry_db_cases cfg2 env2 m2 db2 s2 with h | ⟨u, hdisc, _, hnew, _⟩
    · exact h
    · rw [hd2] at hdisc
      have huu : u = u2 := by
        injection hdisc with h1
        injection h1 with h1
        exact h1.symm
      rw [huu, hnot] at hnew
      exact absurd hnew (by simp)
  · rw [checkAndPushUpdates_run cfg env true db hen hon]
    exact (runEntries_preserve cfg env true cfg.subscriptions db a url ha hurl hs hdb).1
  · rw [checkAndPushUpdates_run cfg env true db hen hon]
    have hall := (runEntries_preserve cfg env true cfg.subscriptions db a url
      ha hurl hs hdb).2 rfl
    dsimp only
    rw [List.all_eq_true]
    intro t htmem
    by_cases hta : t.username = a
    · rw [hall t htmem hta]
      simp
    · simp [hta]

/-- Witness for C3: a forced cycle over the sample account whose stored
reference equals the rediscovered one. -/
theorem c3_record_written_only_if_new_witness :
    (isNewCheck (dbGet [("alice", sampleUrl)] sampleSub.username) sampleUrl = false →
      (runEntry sampleCycleCfg sampleCycleEnv true [("alice", sampleUrl)] sampleSub).1
        = [("alice", sampleUrl)])
    ∧ dbGet (checkAndPushUpdates sampleCycleCfg sampleCycleEnv true
        [("alice", sampleUrl)]).db "alice" = some sampleUrl
    ∧ (checkAndPushUpdates sampleCycleCfg sampleCycleEnv true
        [("alice", sampleUrl)]).traces.all
        (fun t => !(t.username == "alice") || t.pushed) = true :=
  c3_record_written_only_if_new sampleCycleCfg sampleCycleEnv [("alice", sampleUrl)]
    "alice" sampleUrl sampleCycleCfg sampleCycleEnv true [("alice", sampleUrl)]
    sampleSub sampleUrl rfl rfl (by decide) (by decide)
    (by
      intro s hmem hname
      have hs2 : s = sampleSub := List.mem_singleton.mp hmem
      subst hs2
      exact ⟨by decide, rfl⟩)
    (by decide) rfl

/-- Claim C8: a cycle with the bot available aggregates the number of entries
that resulted in a push; a forced cycle returns that count inside its
user-facing summary, while an unforced scheduled cycle — in every
configuration and environment — returns no value. -/
theorem c8_forced_summary_count (cfg : CycleConfig) (env : CycleEnv) (db : Db)
    (cfg2 : CycleConfig) (env2 : CycleEnv) (db2 : Db)
    (hen : cfg.enableSubscription = true) (hon : env.botOnline = true) :
    (checkAndPushUpdates cfg env true db).summary
      = some (manualSummary (checkAndPushUpdates cfg env true db).updatesFound)
    ∧ (checkAndPushUpdates cfg env true db).updatesFound
        = (checkAndPushUpdates cfg env true db).traces.countP (fun t => t.pushed)
    ∧ (checkAndPushUpdates cfg2 env2 false db2).summary = none := by
  refine ⟨?_, ?_, ?_⟩
  · rw [checkAndPushUpdates_run cfg env true db hen hon]
    rfl
  · rw [checkAndPushUpdates_run cfg env true db hen hon]
    exact runEntries_count cfg env true cfg.subscriptions db
  · unfold checkAndPushUpdates
    cases cfg2.enableSubscription with
    | false => rfl
    | true => cases env2.botOnline with
      | false => rfl
      | true => rfl

/-- Witness for C8: the sample forced cycle returns the summary built from
its push count; the same cycle unforced returns nothing. -/
theorem c8_forced_summary_count_witness :
    (checkAndPushUpdates sampleCycleCfg sampleCycleEnv true []).summary
      = some (manualSummary
          (checkAndPushUpdates sampleCycleCfg sampleCycleEnv true []).updatesFound)
    ∧ (checkAndPushUpdates sampleCycleCfg sampleCycleEnv true []).updatesFound
        = (checkAndPushUpdates sampleCycleCfg sampleCycleEnv true []).traces.countP
            (fun t => t.pushed)
    ∧ (checkAndPushUpdates sampleCycleCfg sampleCycleEnv false []).summary = none :=
  c8_forced_summary_count sampleCycleCfg sampleCycleEnv [] sampleCycleCfg
    sampleCycleEnv [] rfl rfl

/-- Claim C9 (implicit frame property): one entry writes at most the record
keyed by its own account — every other key reads unchanged; over a whole
cycle every key not named by a subscription entry reads unchanged; and no
record is ever deleted by a cycle. -/
theorem c9_frame_no_delete (cfg : CycleConfig) (env : CycleEnv) (m : Bool)
    (db : Db) (sub : SubEntry) (k : String)
    (cfg2 : CycleConfig) (env2 : CycleEnv) (m2 : Bool) (db2 : Db) (k2 : String)
    (cfg3 : CycleConfig) (env3 : CycleEnv) (m3 : Bool) (db3 : Db) (k3 : String)
    (hk : k ≠ sub.username)
    (hk2 : k2 ∉ cfg2.subscriptions.map SubEntry.username)
    (hk3 : (dbGet db3 k3).isSome = true) :
    dbGet (runEntry cfg env m db sub).1 k = dbGet db k
    ∧ dbGet (checkAndPushUpdates cfg2 env2 m2 db2).db k2 = dbGet db2 k2
    ∧ (dbGet (checkAndPushUpdates cfg3 env3 m3 db3).db k3).isSome = true := by
  refine ⟨runEntry_frame cfg env m db sub k hk, ?_, ?_⟩
  · rcases checkAndPushUpdates_db_cases cfg2 env2 m2 db2 with h | h
    · rw [h]
    · rw [h]
      exact runEntries_frame cfg2 env2 m2 cfg2.subscriptions db2 k2 hk2
  · rcases checkAndPushUpdates_db_cases cfg3 env3 m3 db3 with h | h
    · rw [h]; exact hk3
    · rw [h]
      exact runEntries_noDelete cfg3 env3 m3 cfg3.subscriptions db3 k3 hk3

/-- Witness for C9: a foreign key `bob` survives the sample cycle untouched,
and the stored record survives as present. -/
theorem c9_frame_no_delete_witness :
    dbGet (runEntry sampleCycleCfg sampleCycleEnv false [("bob", "u0")] sampleSub).1 "bob"
      = dbGet [("bob", "u0")] "bob"
    ∧ dbGet (checkAndPushUpdates sampleCycleCfg sampleCycleEnv false
        [("bob", "u0")]).db "bob" = dbGet [("bob", "u0")] "bob"
    ∧ (dbGet (checkAndPushUpdates sampleCycleCfg sampleCycleEnv false
        [("bob", "u0")]).db "bob").isSome = true :=
  c9_frame_no_delete sampleCycleCfg sampleCycleEnv false [("bob", "u0")] sampleSub "bob"
    sampleCycleCfg sampleCycleEnv false [("bob", "u0")] "bob"
    sampleCycleCfg sampleCycleEnv false [("bob", "u0")] "bob"
    (by decide) (by decide) (by decide)
